import Mathlib

/-!
Formal model of the memory-mapped rotating log writer `MMapLogger` and of its
retention sweep, translated from the Go source (logger package): the write
path (`Write`, `allocateSpace`, `unMap`, `rotate`, `openNew`,
`openExistingOrNew`, `StopMmapLogger`), the sweep (`oldLogFiles`,
`millRunOnce`, the `byFormatTime` ordering) and `compressLogFile`.

Modelling conventions:
* Go strings are `List Char`, byte buffers are `List Int`, machine integers
  (Go int and int64) are `Int`.
* The package vars `megabyte = 1024*1024` and `pageSize = 4*1024` are mutable
  package vars in the source (the usual test seam), so they are fields of
  `Env` rather than constants; `Env` also carries the process name and temp
  dir used by the default filename.
* The operating system is modelled deterministically: a syscall succeeds
  whenever its precondition holds (munmap fails on a range that is not
  currently mapped, closing an already closed handle fails, mmap, ftruncate,
  open, create, stat and rename succeed). Errors are values of `Err`.
* `l.mmapSpace` is a byte slice aliasing the file through a shared mapping;
  it is modelled by the slice header (`mmapStart`, `mmapLen`) on the logger
  plus the `mapped` flag on the world, and writes through the mapping land
  directly in `activeData` (the bytes of the open inode).
* time.Time values are integers; `formatBackupTime` and `parseBackupTime`
  model `t.Format` and `time.Parse` with the fixed layout
  2006-01-02T15-04-05.000 (the parse model checks the fixed-width shape and
  returns the digit string read as a number, which is monotone in the
  encoded instant; calendar range checks are not modelled).
* The mutex, the mill goroutine and its channel are not part of the state:
  every modelled call runs under the lock in the source, and `l.mill()` only
  sends a debounced signal, so it is the identity on the writer state.
-/

namespace MmapWriteSyncer

/-- Boolean test that `p` is a leading segment of `s` (strings.HasPrefix). -/
def hasPfx : List Char → List Char → Bool
  | _, [] => true
  | [], _ :: _ => false
  | c :: cs, d :: ds => c == d && hasPfx cs ds

/-- Boolean test that `sfx` is a trailing segment of `s` (strings.HasSuffix). -/
def hasSfx (s sfx : List Char) : Bool := hasPfx s.reverse sfx.reverse

/-- Suffix of a base filename starting at its last dot, empty when it has no
dot; models filepath.Ext applied to a base name. -/
def extOf : List Char → List Char
  | [] => []
  | c :: cs =>
    let e := extOf cs
    if e = [] then (if c = '.' then c :: cs else []) else e

/-- Final path component: the part after the last slash (filepath.Base on the
well-formed paths the logger builds). -/
def baseName (s : List Char) : List Char :=
  (s.reverse.takeWhile (fun c => c != '/')).reverse

/-- Constant `defaultMmapMaxSize = 100` from the source. -/
def defaultMmapMaxSize : Int := 100

/-- Constant `defaultMegaByteSize = 10` from the source (window size in MB). -/
def defaultMegaByteSize : Int := 10

/-- Constant `compressSuffix = ".gz"` from the source. -/
def compressSuffix : List Char := ['.', 'g', 'z']

/-- Ambient values that are package vars or process facts in the source:
`megabyte`, `pageSize`, and the data feeding the default file name. -/
structure Env where
  megabyte : Int
  pageSize : Int
  procBase : List Char
  tmpDir : List Char
deriving DecidableEq, Repr

/-- The `MMapLogger` struct: its config fields and the mutable fields guarded
by the mutex. `fileIsNil` models `l.file == nil`; `mmapStart`/`mmapLen` model
the header of the `l.mmapSpace` slice. -/
structure MMapLogger where
  Filename : List Char
  MaxSize : Int
  MaxAge : Int
  MaxBackups : Int
  LocalTime : Bool
  Compress : Bool
  size : Int
  fileIsNil : Bool
  writeStartAt : Int
  writeAt : Int
  mmapStart : Int
  mmapLen : Int
deriving DecidableEq, Repr

/-- The part of the operating system the writer touches: the file at the
canonical path (`activeData` are the bytes of the inode the handle refers
to), whether that handle is open, whether a mapping over it is live, the
archived (renamed) files with their on-disk sizes, and the clock. -/
structure World where
  canonicalExists : Bool
  activeData : List Int
  handleOpen : Bool
  mapped : Bool
  archived : List (List Char × Int)
  now : Int
deriving DecidableEq, Repr

/-- Combined state of one writer and the world it acts on. -/
structure LState where
  lg : MMapLogger
  fs : World
deriving DecidableEq, Repr

/-- Errors the modelled calls can return. -/
inductive Err where
  | writeTooLarge (wlen mx : Int)
  | munmapFail
  | closeFail
deriving DecidableEq, Repr

/-- Models `(*MMapLogger).max()`: MaxSize in megabytes, defaulting to 100. -/
def maxFileSize (l : MMapLogger) (env : Env) : Int :=
  if l.MaxSize = 0 then defaultMmapMaxSize * env.megabyte
  else l.MaxSize * env.megabyte

/-- Models `(*MMapLogger).filename()`: the configured name, or the
processname-mmap.log default in the temp dir. -/
def filename (l : MMapLogger) (env : Env) : List Char :=
  if l.Filename ≠ [] then l.Filename
  else env.tmpDir ++ ['/'] ++ env.procBase ++ ['-', 'm', 'm', 'a', 'p', '.', 'l', 'o', 'g']

/-- Effect of ftruncate to length `n`: keep the first `n` bytes, zero-fill
when extending. -/
def resizeTo (data : List Int) (n : Int) : List Int :=
  data.take n.toNat ++ List.replicate (n.toNat - data.length) 0

/-- Models `t.Format(backupTimeFormat)` abstractly: a digit rendering of the
integer instant (the exact text is irrelevant to the modelled claims). -/
def formatBackupTime (t : Int) : List Char := Nat.toDigits 10 t.toNat

/-- Models the free function `backupName`: directory part kept, stem, dash,
timestamp, extension. The local/UTC choice only changes the rendered wall
time, which the integer clock absorbs. -/
def backupName (name : List Char) (_localT : Bool) (t : Int) : List Char :=
  let fname := baseName name
  let dirPart := name.take (name.length - fname.length)
  let e := extOf fname
  let stem := fname.take (fname.length - e.length)
  dirPart ++ stem ++ ['-'] ++ formatBackupTime t ++ e

/-- Models `(*MMapLogger).unMap()`: nothing to do when the slice is empty,
munmap (which fails when no mapping is live), then ftruncate down to
`writeAt` whose error the source only prints. The slice header on the logger
is not cleared, exactly as in the source. -/
def unMap (s : LState) : LState × Option Err :=
  if s.lg.mmapLen = 0 then (s, none)
  else if s.fs.mapped = false then (s, some Err.munmapFail)
  else
    ({ s with fs := { s.fs with
                      mapped := false,
                      activeData := resizeTo s.fs.activeData s.lg.writeAt } }, none)

/-- Models `(*MMapLogger).close()`: nil check, close the handle, set the
handle to nil; closing an already closed handle reports an error. -/
def close (s : LState) : LState × Option Err :=
  if s.lg.fileIsNil then (s, none)
  else
    (({ s with
        lg := { s.lg with fileIsNil := true },
        fs := { s.fs with handleOpen := false } }),
     if s.fs.handleOpen then none else some Err.closeFail)

/-- Models `(*MMapLogger).openNew()`: make the directory, rename an existing
canonical file to its backup name (the rename archives the inode at its
current on-disk size; `chown` then recreates an empty canonical file), open
or create the canonical file, and load `size`/`writeAt` from its stat (0 for
the fresh file). `writeStartAt` and the mapping are not touched. -/
def openNew (env : Env) (s : LState) : LState × Option Err :=
  let name := filename s.lg env
  let s1 :=
    if s.fs.canonicalExists then
      { s with fs := { s.fs with
                       archived := s.fs.archived ++
                         [(backupName name s.lg.LocalTime s.fs.now,
                           (s.fs.activeData.length : Int))] } }
    else s
  ({ s1 with
      lg := { s1.lg with fileIsNil := false, size := 0, writeAt := 0 },
      fs := { s1.fs with canonicalExists := true, activeData := [], handleOpen := true } },
   none)

/-- Models `(*MMapLogger).openExistingOrNew()`: signal the mill (no state
effect), then open the canonical file if it exists, initialising
`size`/`writeAt` from its stat, else fall back to `openNew`. -/
def openExistingOrNew (env : Env) (s : LState) : LState × Option Err :=
  if s.fs.canonicalExists = false then openNew env s
  else
    ({ s with
        lg := { s.lg with
                fileIsNil := false,
                size := (s.fs.activeData.length : Int),
                writeAt := (s.fs.activeData.length : Int) },
        fs := { s.fs with handleOpen := true } }, none)

/-- Propagation of the `if err != nil { return ... }` pattern: dispatch on
the error component of a call result. -/
def errOr {α : Type} (r : LState × Option Err) (f : LState → Err → α)
    (g : LState → α) : α :=
  match r with
  | (s1, some e) => f s1 e
  | (s1, none) => g s1

/-- Models `(*MMapLogger).rotate()`: close, then openNew, then signal the
mill (no state effect). Note that the source never unmaps here. -/
def rotate (env : Env) (s : LState) : LState × Option Err :=
  errOr (close s) (fun s1 e => (s1, some e)) (fun s1 =>
    errOr (openNew env s1) (fun s2 e => (s2, some e)) (fun s2 => (s2, none)))

/-- Models the exported `(*MMapLogger).Rotate()` (lock acquisition elided). -/
def Rotate (env : Env) (s : LState) : LState × Option Err := rotate env s

/-- Models `(*MMapLogger).allocateSpace()`: unmap the current window, page
align the write cursor, rotate instead of extending when the new window
would cross the max size, ftruncate up to the window end, map the window,
and record the new slice header, window start and size. -/
def allocateSpace (env : Env) (s : LState) : LState × Option Err :=
  errOr (unMap s) (fun s1 e => (s1, some e)) (fun s1 =>
    let megaByteSize := defaultMegaByteSize * env.megabyte
    let ws0 := s1.lg.writeAt / env.pageSize * env.pageSize
    let rot : Bool := decide (ws0 + megaByteSize > maxFileSize s1.lg env)
    errOr (if rot then rotate env s1 else (s1, none)) (fun s2 e => (s2, some e))
      (fun s2 =>
        let ws := if rot then 0 else ws0
        let s3 := { s2 with fs := { s2.fs with
            activeData := resizeTo s2.fs.activeData (ws + megaByteSize) } }
        ({ s3 with
            lg := { s3.lg with
                    mmapStart := ws, mmapLen := megaByteSize,
                    writeStartAt := ws, size := ws + megaByteSize },
            fs := { s3.fs with mapped := true } }, none)))

/-- Effect of `copy(l.mmapSpace[cacheAt:], p)` through the shared mapping:
overwrite `p` at byte offset `off` of the file. -/
def storeBytes (data : List Int) (off : Int) (p : List Int) : List Int :=
  data.take off.toNat ++ p ++ data.drop (off.toNat + p.length)

/-- The `if l.file == nil` step of Write: open the file when no handle is
held. -/
def writeOpenStep (env : Env) (s : LState) : LState × Option Err :=
  if s.lg.fileIsNil then openExistingOrNew env s else (s, none)

/-- The `if len(p) >= int(l.size)-int(l.writeAt)` step of Write: allocate a
new window when the pending write reaches the mapped extent. -/
def writeAllocStep (env : Env) (s1 : LState) (p : List Int) : LState × Option Err :=
  if (p.length : Int) ≥ s1.lg.size - s1.lg.writeAt then allocateSpace env s1
  else (s1, none)

/-- The tail of Write after opening and allocation: the in-window bound
check (whose early return hands back `len(p)` with the nil `err`), the copy
through the mapping, and the cursor and size updates. The named return `n`
is still 0 here, so `l.size += int64(n)` adds 0 and 0 is returned. -/
def writeCopyStep (s2 : LState) (p : List Int) : LState × Int × Option Err :=
  let n : Int := 0
  let cacheAt := s2.lg.writeAt - s2.lg.writeStartAt
  if (p.length : Int) + cacheAt > s2.lg.mmapLen then
    (s2, (p.length : Int), none)
  else
    let s3 := { s2 with fs := { s2.fs with
        activeData := storeBytes s2.fs.activeData (s2.lg.mmapStart + cacheAt) p } }
    ({ s3 with lg := { s3.lg with
        writeAt := s3.lg.writeAt + (p.length : Int),
        size := s3.lg.size + n } }, n, none)

/-- Models `(*MMapLogger).Write(p)`, returning the new state, the returned
count `n` and the returned error: the size gate, then `writeOpenStep`,
`writeAllocStep` and `writeCopyStep`, with the two error returns of the
source in between. -/
def Write (env : Env) (s : LState) (p : List Int) : LState × Int × Option Err :=
  let writeLen : Int := p.length
  if writeLen > maxFileSize s.lg env then
    (s, 0, some (Err.writeTooLarge writeLen (maxFileSize s.lg env)))
  else
    errOr (writeOpenStep env s) (fun s1 e => (s1, 0, some e)) (fun s1 =>
      errOr (writeAllocStep env s1 p) (fun s2 e => (s2, (p.length : Int), some e))
        (fun s2 => writeCopyStep s2 p))

/-- Models `(*MMapLogger).StopMmapLogger()`: unMap (error ignored) then
`l.file.Close()` directly (error ignored; the field is not set to nil). -/
def StopMmapLogger (s : LState) : LState :=
  let s1 := (unMap s).1
  if s1.lg.fileIsNil then s1
  else { s1 with fs := { s1.fs with handleOpen := false } }

/-- The Go zero value of the struct with the config fields filled in, as the
facade constructs it. -/
def mkLogger (fname : List Char) (maxSize maxAge maxBackups : Int)
    (localT comp : Bool) : MMapLogger :=
  { Filename := fname, MaxSize := maxSize, MaxAge := maxAge,
    MaxBackups := maxBackups, LocalTime := localT, Compress := comp,
    size := 0, fileIsNil := true, writeStartAt := 0, writeAt := 0,
    mmapStart := 0, mmapLen := 0 }

/-- A directory with no canonical file yet. -/
def freshWorld (now : Int) : World :=
  { canonicalExists := false, activeData := [], handleOpen := false,
    mapped := false, archived := [], now := now }

/-- An entry of the `logInfo` slice the sweep works on: a file name and the
timestamp parsed out of it. -/
structure LogInfo where
  name : List Char
  timestamp : Int
deriving DecidableEq, Repr

/-- Decimal digit test. -/
def isDigit (c : Char) : Bool := '0' ≤ c && c ≤ '9'

/-- Numeric value of a digit string. -/
def digitsVal (s : List Char) : Int :=
  s.foldl (fun acc c => 10 * acc + ((c.toNat : Int) - ('0'.toNat : Int))) 0

/-- Models `time.Parse(backupTimeFormat, ts)` for the fixed-width layout
2006-01-02T15-04-05.000: check the shape, then read the seventeen digits as
one number, which orders exactly as the encoded instants do. Calendar range
checks of the real parser are not modelled; nothing below depends on them. -/
def parseBackupTime (s : List Char) : Option Int :=
  match s with
  | [y1, y2, y3, y4, a1, mo1, mo2, a2, d1, d2, a3,
     h1, h2, a4, mi1, mi2, a5, s1, s2, a6, ms1, ms2, ms3] =>
    if (a1 == '-' && a2 == '-' && a3 == 'T' && a4 == '-' && a5 == '-' && a6 == '.')
        && [y1, y2, y3, y4, mo1, mo2, d1, d2, h1, h2,
            mi1, mi2, s1, s2, ms1, ms2, ms3].all isDigit then
      some (digitsVal [y1, y2, y3, y4, mo1, mo2, d1, d2, h1, h2,
                       mi1, mi2, s1, s2, ms1, ms2, ms3])
    else none
  | _ => none

/-- Models `(*MMapLogger).timeFromName`: check the stem-dash leading part and
the extension, then parse the middle as a backup timestamp. The slice of the
middle part is clamped (the source would panic when the two parts overlap,
which no name built by the logger triggers). -/
def timeFromName (fname pfx ext : List Char) : Option Int :=
  if hasPfx fname pfx = false then none
  else if hasSfx fname ext = false then none
  else parseBackupTime ((fname.drop pfx.length).take (fname.length - ext.length - pfx.length))

/-- Models `(*MMapLogger).prefixAndExt()`: the base name split into the stem
followed by a dash, and the extension. -/
def stemAndExt (l : MMapLogger) (env : Env) : List Char × List Char :=
  let fname := baseName (filename l env)
  let ext := extOf fname
  (fname.take (fname.length - ext.length) ++ ['-'], ext)

/-- One insertion step of the sort by `byFormatTime` (Less is `After`, so
newest first). -/
def insertDesc (f : LogInfo) : List LogInfo → List LogInfo
  | [] => [f]
  | g :: gs => if g.timestamp < f.timestamp then f :: g :: gs else g :: insertDesc f gs

/-- Models `sort.Sort(byFormatTime(logFiles))`: a deterministic sort whose
output is ordered newest-timestamp first, which is all the unstable source
sort guarantees. -/
def sortByFormatTime (fs : List LogInfo) : List LogInfo :=
  fs.foldr insertDesc []

/-- Models `(*MMapLogger).oldLogFiles()` on a directory listing: keep the
entries whose name parses as a backup name, plain or with the compressed
suffix, and sort them newest first. Directories in the listing are dropped by
the source before this point, so entries here are plain file names. -/
def oldLogFiles (l : MMapLogger) (env : Env) (entries : List (List Char)) : List LogInfo :=
  let pe := stemAndExt l env
  let logFiles := entries.filterMap (fun nm =>
    match timeFromName nm pe.1 pe.2 with
    | some t => some ⟨nm, t⟩
    | none =>
      match timeFromName nm pe.1 (pe.2 ++ compressSuffix) with
      | some t => some ⟨nm, t⟩
      | none => none)
  sortByFormatTime logFiles

/-- Stem of a candidate name for the backup count: the name with the
compressed suffix stripped, as in the preserved-map loop of millRunOnce. -/
def stripGz (fn : List Char) : List Char :=
  if hasSfx fn compressSuffix then fn.take (fn.length - compressSuffix.length) else fn

/-- Insertion into the `preserved` map modelled as a duplicate-free list. -/
def insertNew (pres : List (List Char)) (k : List Char) : List (List Char) :=
  if k ∈ pres then pres else pres ++ [k]

/-- The backup-count loop of millRunOnce: walk the sorted candidates, record
each stem in `preserved`, and mark the file for removal when the map has
grown past MaxBackups, else keep it. Returns (remove, remaining) in walk
order. -/
def millSelect (m : Int) : List LogInfo → List (List Char) → List LogInfo × List LogInfo
  | [], _ => ([], [])
  | f :: fs, pres =>
    let pres' := insertNew pres (stripGz f.name)
    let r := millSelect m fs pres'
    if (pres'.length : Int) > m then (f :: r.1, r.2) else (r.1, f :: r.2)

/-- Models `(*MMapLogger).millRunOnce()` up to the point where the marked
files are acted on: returns the remove list and the compress list it builds
from a directory listing. The cutoff arithmetic mirrors
`now − 24h·MaxAge` on the integer clock. -/
def millRunOnce (l : MMapLogger) (env : Env) (entries : List (List Char))
    (now : Int) : List LogInfo × List LogInfo :=
  if l.MaxBackups = 0 ∧ l.MaxAge = 0 ∧ l.Compress = false then ([], [])
  else
    let files := oldLogFiles l env entries
    let rb :=
      if l.MaxBackups > 0 ∧ l.MaxBackups < (files.length : Int) then
        millSelect l.MaxBackups files []
      else ([], files)
    let ra :=
      if l.MaxAge > 0 then
        let cutoff := now - 86400000 * l.MaxAge
        (rb.2.filter (fun f => decide (f.timestamp < cutoff)),
         rb.2.filter (fun f => decide (¬ f.timestamp < cutoff)))
      else ([], rb.2)
    let comp :=
      if l.Compress then ra.2.filter (fun f => hasSfx f.name compressSuffix = false)
      else []
    (rb.1 ++ ra.1, comp)

/-- Number of leading candidates the backup-count loop keeps: the walk
stops keeping as soon as the preserved-stem map would grow past `m`. -/
def keepCnt (m : Int) (pres : List (List Char)) : List LogInfo → Nat
  | [] => 0
  | f :: fs =>
    let pres' := insertNew pres (stripGz f.name)
    if (pres'.length : Int) > m then 0 else keepCnt m pres' fs + 1

/-- The preserved-stem map built from a candidate list: the distinct stems
in first-appearance order. -/
def stemsAux (pres : List (List Char)) : List LogInfo → List (List Char)
  | [] => pres
  | f :: fs => stemsAux (insertNew pres (stripGz f.name)) fs

/-- The failure points of `compressLogFile`, in source order. -/
inductive CStep where
  | openSrc | statSrc | chownDst | openDst | copyData | gzClose | gzfClose
  | srcClose | removeSrc
deriving DecidableEq, Repr

/-- The slice of the file system `compressLogFile` touches: the source file,
the destination file, the payload written to the destination so far, and
whether the compressed stream has been fully written and closed. -/
structure CFs where
  srcExists : Bool
  srcData : List Int
  dstExists : Bool
  dstBuf : List Int
  dstFlushed : Bool
deriving DecidableEq, Repr

/-- Errors of the compression model. -/
inductive CErr where
  | openSrcFail | statFail | chownFail | openDstFail | compressFail
deriving DecidableEq, Repr

/-- Models `compressLogFile(src, dst)` with a failure oracle choosing which
fallible step fails. `chown(dst, fi)` creates the destination file before
compression starts, as in the source. From the opening of the gzip stream
on, any error triggers the deferred cleanup that removes the destination;
the original is removed last, only after both closes succeeded. The gzip
encoding itself is abstracted to the payload bytes. -/
def compressLogFile (fail : CStep → Bool) (fs : CFs) : CFs × Option CErr :=
  if fs.srcExists = false ∨ fail CStep.openSrc then (fs, some CErr.openSrcFail)
  else if fail CStep.statSrc then (fs, some CErr.statFail)
  else
    let fs1 := { fs with dstExists := true }
    if fail CStep.chownDst then (fs1, some CErr.chownFail)
    else if fail CStep.openDst then (fs1, some CErr.openDstFail)
    else if fail CStep.copyData then
      ({ fs1 with dstExists := false }, some CErr.compressFail)
    else
      let fs2 := { fs1 with dstBuf := fs1.srcData }
      if fail CStep.gzClose then
        ({ fs2 with dstExists := false }, some CErr.compressFail)
      else
        let fs3 := { fs2 with dstFlushed := true }
        if fail CStep.gzfClose then
          ({ fs3 with dstExists := false }, some CErr.compressFail)
        else if fail CStep.srcClose then
          ({ fs3 with dstExists := false }, some CErr.compressFail)
        else if fail CStep.removeSrc then
          ({ fs3 with dstExists := false }, some CErr.compressFail)
        else ({ fs3 with srcExists := false }, none)

/-- A small environment for concrete runs: megabyte and pageSize are the
package vars (set here to 1 and 4, as the usual test seam does), so the
mapped window is 10 bytes and a page is 4 bytes. -/
def env1 : Env := { megabyte := 1, pageSize := 4, procBase := ['p'], tmpDir := ['t'] }

/-- A concrete configured file name. -/
def aLog : List Char := ['a', '.', 'l', 'o', 'g']

/-- A writer configured with max size 100 (megabyte units of `env1`). -/
def lg1 : MMapLogger := mkLogger aLog 100 0 0 false false

/-- The writer of `lg1` before its first write, in an empty directory. -/
def st1 : LState := { lg := lg1, fs := freshWorld 0 }

/-- A writer of `lg1` mid-life: cursor at 7, window mapped at page offset 4
of 10 bytes, file pre-extended to 14 bytes on disk. -/
def st3 : LState :=
  { lg := { lg1 with
            size := 14, fileIsNil := false, writeStartAt := 4, writeAt := 7,
            mmapStart := 4, mmapLen := 10 },
    fs := { canonicalExists := true, activeData := List.replicate 14 0,
            handleOpen := true, mapped := true, archived := [], now := 3 } }

/-- A writer configured with max size 4 bytes under `env1`. -/
def stSmall : LState := { lg := mkLogger aLog 4 0 0 false false, fs := freshWorld 0 }

/-- Failure oracle making exactly the copy step fail. -/
def failCopy : CStep → Bool := fun st => st == CStep.copyData

/-- A two-byte source file and no destination yet. -/
def cfs0 : CFs :=
  { srcExists := true, srcData := [1, 2], dstExists := false,
    dstBuf := [], dstFlushed := false }

/-- Timestamp characters 2024-01-02T03-04-05.006. -/
def ts1 : List Char :=
  ['2','0','2','4','-','0','1','-','0','2','T','0','3','-','0','4','-','0','5','.','0','0','6']

/-- Timestamp characters 2024-01-02T03-04-05.007. -/
def ts2 : List Char :=
  ['2','0','2','4','-','0','1','-','0','2','T','0','3','-','0','4','-','0','5','.','0','0','7']

/-- Backup file name a-<ts1>.log. -/
def bk1 : List Char := ['a', '-'] ++ ts1 ++ ['.', 'l', 'o', 'g']

/-- Backup file name a-<ts2>.log. -/
def bk2 : List Char := ['a', '-'] ++ ts2 ++ ['.', 'l', 'o', 'g']

/-- Backup file name a-<ts2>.log.gz (same stem as `bk2`, compressed). -/
def bk2gz : List Char := bk2 ++ compressSuffix

/-- A writer configured to keep one backup. -/
def lgB : MMapLogger := mkLogger aLog 100 0 1 false false

/-- A directory listing with the active file, one old backup and a
newer backup present both plain and compressed. -/
def entriesB : List (List Char) := [aLog, bk1, bk2gz, bk2]

/-! Basic facts about the modelled calls. -/

theorem errOr_of_none {α : Type} (r : LState × Option Err) (f : LState → Err → α)
    (g : LState → α) (h : r.2 = none) : errOr r f g = g r.1 := by
  rcases r with ⟨s1, e⟩
  cases e
  · rfl
  · exact absurd h (by simp)

theorem errOr_of_some {α : Type} (r : LState × Option Err) (f : LState → Err → α)
    (g : LState → α) (e : Err) (h : r.2 = some e) : errOr r f g = f r.1 e := by
  rcases r with ⟨s1, e1⟩
  cases e1
  · exact absurd h (by simp)
  · cases h
    rfl

theorem openNew_err (env : Env) (s : LState) : (openNew env s).2 = none := rfl

theorem openExistingOrNew_err (env : Env) (s : LState) :
    (openExistingOrNew env s).2 = none := by
  unfold openExistingOrNew
  split
  · exact openNew_err env s
  · rfl

theorem close_err (s : LState) :
    (close s).2 = none ∨ (close s).2 = some Err.closeFail := by
  unfold close
  split
  · exact Or.inl rfl
  · by_cases h : s.fs.handleOpen <;> simp [h]

theorem unMap_err (s : LState) :
    (unMap s).2 = none ∨ (unMap s).2 = some Err.munmapFail := by
  unfold unMap
  split
  · exact Or.inl rfl
  · split
    · exact Or.inr rfl
    · exact Or.inl rfl

theorem rotate_err (env : Env) (s : LState) :
    (rotate env s).2 = none ∨ (rotate env s).2 = some Err.closeFail := by
  unfold rotate
  rcases close_err s with h | h
  · rw [errOr_of_none _ _ _ h, errOr_of_none _ _ _ (openNew_err env (close s).1)]
    exact Or.inl rfl
  · rw [errOr_of_some _ _ _ _ h]
    exact Or.inr rfl

theorem allocateSpace_err (env : Env) (s : LState) :
    (allocateSpace env s).2 = none ∨ (allocateSpace env s).2 = some Err.munmapFail ∨
      (allocateSpace env s).2 = some Err.closeFail := by
  unfold allocateSpace
  rcases unMap_err s with h | h
  · rw [errOr_of_none _ _ _ h]
    set s1 := (unMap s).1 with hs1
    by_cases hb : decide (s1.lg.writeAt / env.pageSize * env.pageSize +
        defaultMegaByteSize * env.megabyte > maxFileSize s1.lg env) = true
    · simp only [hb, if_true]
      rcases rotate_err env s1 with h2 | h2
      · rw [errOr_of_none _ _ _ h2]
        exact Or.inl rfl
      · rw [errOr_of_some _ _ _ _ h2]
        exact Or.inr (Or.inr rfl)
    · simp only [Bool.not_eq_true] at hb
      simp only [hb, Bool.false_eq_true, if_false]
      rw [errOr_of_none _ _ _ rfl]
      exact Or.inl rfl
  · rw [errOr_of_some _ _ _ _ h]
    exact Or.inr (Or.inl rfl)

theorem writeOpenStep_err (env : Env) (s : LState) :
    (writeOpenStep env s).2 = none := by
  unfold writeOpenStep
  split
  · exact openExistingOrNew_err env s
  · rfl

theorem writeAllocStep_err (env : Env) (s1 : LState) (p : List Int) :
    (writeAllocStep env s1 p).2 = none ∨
      (writeAllocStep env s1 p).2 = some Err.munmapFail ∨
      (writeAllocStep env s1 p).2 = some Err.closeFail := by
  unfold writeAllocStep
  split
  · exact allocateSpace_err env s1
  · exact Or.inl rfl

theorem writeCopyStep_err (s2 : LState) (p : List Int) :
    (writeCopyStep s2 p).2.2 = none := by
  unfold writeCopyStep
  dsimp only
  split
  · rfl
  · rfl

theorem write_err_cases (env : Env) (s : LState) (p : List Int)
    (hle : ¬ (p.length : Int) > maxFileSize s.lg env) :
    (Write env s p).2.2 = none ∨ (Write env s p).2.2 = some Err.munmapFail ∨
      (Write env s p).2.2 = some Err.closeFail := by
  unfold Write
  rw [if_neg hle, errOr_of_none _ _ _ (writeOpenStep_err env s)]
  rcases writeAllocStep_err env (writeOpenStep env s).1 p with h | h | h
  · rw [errOr_of_none _ _ _ h]
    exact Or.inl (writeCopyStep_err _ p)
  · rw [errOr_of_some _ _ _ _ h]
    exact Or.inr (Or.inl rfl)
  · rw [errOr_of_some _ _ _ _ h]
    exact Or.inr (Or.inr rfl)

/-- C1: the claim says Write returns an accepted count of len(buffer) and
advances cursor and logical size by len(buffer); running the code on a
3-byte buffer that fits, the copy happens and the cursor advances by 3, but
the returned count is 0 (the named return is never assigned) and the size
advances by that same 0, staying at the mapped extent 10. This also breaks
the io.Writer contract the source asserts with its io.WriteCloser
assignment. -/
theorem c1_write_returns_zero_count :
    (Write env1 st1 [7, 8, 9]).2.1 = 0 ∧
    (Write env1 st1 [7, 8, 9]).2.2 = none ∧
    (Write env1 st1 [7, 8, 9]).1.lg.writeAt = 3 ∧
    (Write env1 st1 [7, 8, 9]).1.lg.size = 10 ∧
    (Write env1 st1 [7, 8, 9]).1.fs.activeData = [7, 8, 9, 0, 0, 0, 0, 0, 0, 0] ∧
    ((0 : Int) = 3 → False) := by decide

/-- C2: the claim says every accepted write is copied in full and never
silently dropped; running the code on an 11-byte buffer (below the 100-byte
max but above the 10-byte window) the write is accepted with count 11 and a
nil error, yet the cursor stays at 0 and not one byte reaches the freshly
allocated window: the write is silently dropped. -/
theorem c2_oversize_window_write_dropped :
    (Write env1 st1 (List.replicate 11 5)).2.1 = 11 ∧
    (Write env1 st1 (List.replicate 11 5)).2.2 = none ∧
    (Write env1 st1 (List.replicate 11 5)).1.lg.mmapLen = 10 ∧
    (Write env1 st1 (List.replicate 11 5)).1.lg.writeAt = 0 ∧
    (Write env1 st1 (List.replicate 11 5)).1.fs.activeData = List.replicate 10 0 ∧
    ((11 : Int) = 0 → False) := by decide

/-- C3 counterexample: the claim says every rotation first unmaps the active
window and truncates to the write cursor, so that the archived file's
on-disk size equals the cursor; rotating the concrete mapped state `st3`
(cursor 7, file pre-extended to 14) succeeds, yet the mapping is still live
afterwards and the archived file keeps its pre-extended size 14 instead of
7. -/
theorem c3_rotate_keeps_mapping_cex :
    (Rotate env1 st3).2 = none ∧
    (Rotate env1 st3).1.fs.mapped = true ∧
    (Rotate env1 st3).1.fs.archived.map Prod.snd = [14] ∧
    st3.lg.writeAt = 7 ∧ ((14 : Int) = 7 → False) := by decide

/-- C4: Write rejects a buffer with a write-too-large error exactly when its
length strictly exceeds the configured maximum file size, and on rejection it
returns (0, error) with the writer state and the file system untouched (a
buffer of exactly the maximum length is not rejected by this check). -/
theorem c4_write_too_large_iff (env : Env) (s : LState) (p : List Int) :
    ((∃ a b, (Write env s p).2.2 = some (Err.writeTooLarge a b)) ↔
      (p.length : Int) > maxFileSize s.lg env) ∧
    ((p.length : Int) > maxFileSize s.lg env →
      Write env s p =
        (s, 0, some (Err.writeTooLarge (p.length : Int) (maxFileSize s.lg env)))) := by
  have hpos : (p.length : Int) > maxFileSize s.lg env →
      Write env s p =
        (s, 0, some (Err.writeTooLarge (p.length : Int) (maxFileSize s.lg env))) := by
    intro hgt
    unfold Write
    rw [if_pos hgt]
  refine ⟨⟨?_, ?_⟩, hpos⟩
  · intro ⟨a, b, hab⟩
    by_contra hle
    rcases write_err_cases env s p hle with h | h | h <;> rw [h] at hab <;> cases hab
  · intro hgt
    rw [hpos hgt]
    exact ⟨(p.length : Int), maxFileSize s.lg env, rfl⟩

/-- Witness for C4: a 5-byte write against a 4-byte maximum is rejected with
the write-too-large error and leaves the state untouched. -/
theorem c4_write_too_large_iff_witness :
    Write env1 stSmall [1, 2, 3, 4, 5] =
      (stSmall, 0, some (Err.writeTooLarge 5 4)) := by
  have h := (c4_write_too_large_iff env1 stSmall [1, 2, 3, 4, 5]).2 (by decide)
  exact h

theorem resizeTo_length (data : List Int) (n : Int) :
    (resizeTo data n).length = n.toNat := by
  simp only [resizeTo, List.length_append, List.length_take, List.length_replicate]
  omega

theorem unMap_lg (s : LState) : ((unMap s).1).lg = s.lg := by
  unfold unMap
  split_ifs <;> rfl

theorem close_ws (s : LState) : ((close s).1).lg.writeStartAt = s.lg.writeStartAt := by
  unfold close
  split_ifs <;> rfl

theorem openNew_ws (env : Env) (s : LState) :
    ((openNew env s).1).lg.writeStartAt = s.lg.writeStartAt := by
  unfold openNew
  dsimp only
  split_ifs <;> rfl

theorem openExistingOrNew_ws (env : Env) (s : LState) :
    ((openExistingOrNew env s).1).lg.writeStartAt = s.lg.writeStartAt := by
  unfold openExistingOrNew
  split_ifs
  · exact openNew_ws env s
  · rfl

theorem rotate_ws (env : Env) (s : LState) :
    ((rotate env s).1).lg.writeStartAt = s.lg.writeStartAt := by
  unfold rotate
  rcases close_err s with h | h
  · rw [errOr_of_none _ _ _ h, errOr_of_none _ _ _ (openNew_err env (close s).1)]
    rw [openNew_ws env (close s).1, close_ws s]
  · rw [errOr_of_some _ _ _ _ h]
    exact close_ws s

theorem allocateSpace_ws_dvd (env : Env) (s : LState)
    (h : env.pageSize ∣ s.lg.writeStartAt) :
    env.pageSize ∣ ((allocateSpace env s).1).lg.writeStartAt := by
  unfold allocateSpace
  rcases unMap_err s with hu | hu
  · rw [errOr_of_none _ _ _ hu]
    dsimp only
    by_cases hb : decide ((unMap s).1.lg.writeAt / env.pageSize * env.pageSize +
        defaultMegaByteSize * env.megabyte > maxFileSize (unMap s).1.lg env) = true
    · simp only [hb, if_true]
      rcases rotate_err env (unMap s).1 with hr | hr
      · rw [errOr_of_none _ _ _ hr]
        exact dvd_zero env.pageSize
      · rw [errOr_of_some _ _ _ _ hr]
        rw [rotate_ws env (unMap s).1, unMap_lg s]
        exact h
    · simp only [Bool.not_eq_true] at hb
      simp only [hb, Bool.false_eq_true, if_false]
      rw [errOr_of_none _ _ _ rfl]
      exact dvd_mul_left env.pageSize _
  · rw [errOr_of_some _ _ _ _ hu]
    rw [unMap_lg s]
    exact h

theorem writeOpenStep_ws (env : Env) (s : LState) :
    ((writeOpenStep env s).1).lg.writeStartAt = s.lg.writeStartAt := by
  unfold writeOpenStep
  split_ifs
  · exact openExistingOrNew_ws env s
  · rfl

theorem writeAllocStep_ws_dvd (env : Env) (s1 : LState) (p : List Int)
    (h : env.pageSize ∣ s1.lg.writeStartAt) :
    env.pageSize ∣ ((writeAllocStep env s1 p).1).lg.writeStartAt := by
  unfold writeAllocStep
  split_ifs
  · exact allocateSpace_ws_dvd env s1 h
  · exact h

theorem writeCopyStep_ws (s2 : LState) (p : List Int) :
    ((writeCopyStep s2 p).1).lg.writeStartAt = s2.lg.writeStartAt := by
  unfold writeCopyStep
  dsimp only
  split <;> rfl

theorem stop_lg (s : LState) : (StopMmapLogger s).lg = s.lg := by
  unfold StopMmapLogger
  dsimp only
  split_ifs
  · exact unMap_lg s
  · exact unMap_lg s

/-- C6: the mapped-window start is always a multiple of the page size: the
zero-valued fresh logger starts at 0, and Write, Rotate, allocateSpace and
StopMmapLogger all preserve page alignment of `writeStartAt` (allocation
either re-aligns it to the page floor of the cursor or resets it to 0 after
an internal rotation). -/
theorem c6_window_start_page_aligned (env : Env) (s : LState) (p : List Int)
    (h : env.pageSize ∣ s.lg.writeStartAt) :
    (∀ fn ms ma mb lt cp, (mkLogger fn ms ma mb lt cp).writeStartAt = 0) ∧
    env.pageSize ∣ ((Write env s p).1).lg.writeStartAt ∧
    env.pageSize ∣ ((Rotate env s).1).lg.writeStartAt ∧
    env.pageSize ∣ ((allocateSpace env s).1).lg.writeStartAt ∧
    env.pageSize ∣ (StopMmapLogger s).lg.writeStartAt := by
  refine ⟨fun _ _ _ _ _ _ => rfl, ?_, ?_, allocateSpace_ws_dvd env s h, ?_⟩
  · unfold Write
    dsimp only
    split_ifs
    · exact h
    · rw [errOr_of_none _ _ _ (writeOpenStep_err env s)]
      rcases writeAllocStep_err env (writeOpenStep env s).1 p with ha | ha | ha
      · rw [errOr_of_none _ _ _ ha, writeCopyStep_ws]
        refine writeAllocStep_ws_dvd env _ p ?_
        rw [writeOpenStep_ws env s]
        exact h
      · rw [errOr_of_some _ _ _ _ ha]
        refine writeAllocStep_ws_dvd env _ p ?_
        rw [writeOpenStep_ws env s]
        exact h
      · rw [errOr_of_some _ _ _ _ ha]
        refine writeAllocStep_ws_dvd env _ p ?_
        rw [writeOpenStep_ws env s]
        exact h
  · unfold Rotate
    rw [rotate_ws env s]
    exact h
  · rw [stop_lg s]
    exact h

/-- Witness for C6: the page-aligned state `st3` (window start 4, page size
4) keeps a page-aligned window start across a Write, a Rotate, an
allocation and a stop. -/
theorem c6_window_start_page_aligned_witness :
    env1.pageSize ∣ ((Write env1 st3 [1]).1).lg.writeStartAt ∧
    env1.pageSize ∣ ((allocateSpace env1 st3).1).lg.writeStartAt := by
  have h := c6_window_start_page_aligned env1 st3 [1] (by decide)
  exact ⟨h.2.1, h.2.2.2.1⟩

/-- C9: StopMmapLogger unmaps the window and closes the file (truncating the
file to the write cursor on the way, via unMap), it is idempotent (a second
call leaves the state exactly as the first left it: the stale slice header
makes the second munmap fail early and closing the closed handle is a
no-op), and it opens no successor file (the handle field, the canonical
path and the archive set are untouched, and the handle is never reopened). -/
theorem c9_stop_idempotent_no_successor :
    (∀ s : LState, StopMmapLogger (StopMmapLogger s) = StopMmapLogger s) ∧
    (∀ s : LState,
      (StopMmapLogger s).lg.fileIsNil = s.lg.fileIsNil ∧
      (StopMmapLogger s).fs.canonicalExists = s.fs.canonicalExists ∧
      (StopMmapLogger s).fs.archived = s.fs.archived ∧
      ((StopMmapLogger s).fs.handleOpen = true → s.fs.handleOpen = true)) ∧
    (∀ s : LState, s.lg.mmapLen ≠ 0 → s.fs.mapped = true → s.lg.fileIsNil = false →
      (StopMmapLogger s).fs.mapped = false ∧
      (StopMmapLogger s).fs.handleOpen = false ∧
      (StopMmapLogger s).fs.activeData.length = s.lg.writeAt.toNat) := by
  refine ⟨?_, ?_, ?_⟩
  · intro s
    obtain ⟨⟨F, MS, MA, MB, LT, CP, SZ, FN, WS, WA, MST, ML⟩, ⟨CE, AD, HO, MP, AR, NW⟩⟩ := s
    simp only [StopMmapLogger, unMap]
    split_ifs <;> simp_all
  · intro s
    obtain ⟨⟨F, MS, MA, MB, LT, CP, SZ, FN, WS, WA, MST, ML⟩, ⟨CE, AD, HO, MP, AR, NW⟩⟩ := s
    simp only [StopMmapLogger, unMap]
    split_ifs <;> simp_all
  · intro s hml hmp hfn
    obtain ⟨⟨F, MS, MA, MB, LT, CP, SZ, FN, WS, WA, MST, ML⟩, ⟨CE, AD, HO, MP, AR, NW⟩⟩ := s
    simp only at hml hmp hfn
    subst hmp hfn
    simp only [StopMmapLogger, unMap]
    split_ifs <;> simp_all [resizeTo_length]

/-- Witness for C9: stopping the live mapped state `st3` unmaps, closes and
truncates the file to the 7-byte cursor. -/
theorem c9_stop_idempotent_no_successor_witness :
    (StopMmapLogger st3).fs.mapped = false ∧
    (StopMmapLogger st3).fs.handleOpen = false ∧
    (StopMmapLogger st3).fs.activeData.length = st3.lg.writeAt.toNat :=
  c9_stop_idempotent_no_successor.2.2 st3 (by decide) (by decide) (by decide)

theorem close_fst (s : LState) (hnil : s.lg.fileIsNil = false) :
    (close s).1 =
      { s with
        lg := { s.lg with fileIsNil := true },
        fs := { s.fs with handleOpen := false } } := by
  unfold close
  rw [if_neg (by simp [hnil])]

theorem close_snd_none (s : LState) (hnil : s.lg.fileIsNil = false)
    (hopen : s.fs.handleOpen = true) : (close s).2 = none := by
  unfold close
  rw [if_neg (by simp [hnil])]
  simp [hopen]

theorem openNew_fst_exists (env : Env) (s : LState)
    (hex : s.fs.canonicalExists = true) :
    (openNew env s).1 =
      { lg := { s.lg with fileIsNil := false, size := 0, writeAt := 0 },
        fs := { s.fs with
                canonicalExists := true, activeData := [], handleOpen := true,
                archived := s.fs.archived ++
                  [(backupName (filename s.lg env) s.lg.LocalTime s.fs.now,
                    (s.fs.activeData.length : Int))] } } := by
  unfold openNew
  dsimp only
  rw [if_pos hex]

theorem rotate_spec (env : Env) (s : LState) (hnil : s.lg.fileIsNil = false)
    (hopen : s.fs.handleOpen = true) (hex : s.fs.canonicalExists = true) :
    rotate env s =
      ({ lg := { s.lg with fileIsNil := false, size := 0, writeAt := 0 },
         fs := { s.fs with
                 canonicalExists := true, activeData := [], handleOpen := true,
                 archived := s.fs.archived ++
                   [(backupName (filename s.lg env) s.lg.LocalTime s.fs.now,
                     (s.fs.activeData.length : Int))] } }, none) := by
  unfold rotate
  rw [errOr_of_none _ _ _ (close_snd_none s hnil hopen),
      errOr_of_none _ _ _ (openNew_err env (close s).1)]
  rw [close_fst s hnil]
  rw [openNew_fst_exists env _ (by exact hex)]
  rfl

theorem unMap_spec_mapped (s : LState) (hml : s.lg.mmapLen ≠ 0)
    (hmp : s.fs.mapped = true) :
    unMap s =
      ({ s with fs := { s.fs with
                        mapped := false,
                        activeData := resizeTo s.fs.activeData s.lg.writeAt } },
       none) := by
  unfold unMap
  rw [if_neg hml, if_neg (by simp [hmp])]

/-- C3 amended: rotation closes the file handle and renames the canonical
file to its backup name WITHOUT unmapping the active window or truncating:
the mapping survives the rotation and the archived file keeps its current
(pre-extended) on-disk size rather than the write cursor. Truncation to the
exact cursor happens only in unMap (so the on-disk size equals the cursor
after an unMap, as on the allocation-triggered rotation path, which unmaps
before rotating). -/
theorem c3_rotate_archives_at_disk_size (env : Env) (s : LState)
    (hnil : s.lg.fileIsNil = false) (hopen : s.fs.handleOpen = true)
    (hex : s.fs.canonicalExists = true) :
    ((rotate env s).2 = none ∧
     (rotate env s).1.fs.mapped = s.fs.mapped ∧
     (rotate env s).1.fs.archived = s.fs.archived ++
       [(backupName (filename s.lg env) s.lg.LocalTime s.fs.now,
         (s.fs.activeData.length : Int))]) ∧
    (∀ s2 : LState, s2.lg.mmapLen ≠ 0 → s2.fs.mapped = true →
      (unMap s2).2 = none ∧
      ((unMap s2).1).fs.activeData.length = s2.lg.writeAt.toNat) := by
  constructor
  · rw [rotate_spec env s hnil hopen hex]
    exact ⟨rfl, rfl, rfl⟩
  · intro s2 hml hmp
    rw [unMap_spec_mapped s2 hml hmp]
    exact ⟨rfl, resizeTo_length _ _⟩

/-- Witness for C3 amended: rotating `st3` keeps its mapping and archives the
file at its 14-byte pre-extended size; unmapping `st3` instead truncates to
the 7-byte cursor. -/
theorem c3_rotate_archives_at_disk_size_witness :
    ((rotate env1 st3).2 = none ∧
     (rotate env1 st3).1.fs.mapped = st3.fs.mapped ∧
     (rotate env1 st3).1.fs.archived = st3.fs.archived ++
       [(backupName (filename st3.lg env1) st3.lg.LocalTime st3.fs.now,
         (st3.fs.activeData.length : Int))]) ∧
    (unMap st3).2 = none ∧
    ((unMap st3).1).fs.activeData.length = st3.lg.writeAt.toNat := by
  have h := c3_rotate_archives_at_disk_size env1 st3 (by decide) (by decide) (by decide)
  exact ⟨h.1, h.2 st3 (by decide) (by decide)⟩

theorem resizeTo_nil (n : Int) : resizeTo [] n = List.replicate n.toNat 0 := by
  simp [resizeTo]

/-- C5: when the page-aligned window start plus the window size would exceed
the maximum file size, allocateSpace performs a full rotation instead of
extending the old file: the rotation leaves cursor, size (and the pending
window start) at 0, one more file is archived, and the fresh window is then
mapped from offset 0 of the new file, which is pre-extended from empty to
exactly the window size; afterwards cursor, window start and mapping offset
are all 0. -/
theorem c5_allocate_overflow_rotates (env : Env) (s : LState)
    (hnil : s.lg.fileIsNil = false) (hopen : s.fs.handleOpen = true)
    (hex : s.fs.canonicalExists = true)
    (hml : s.lg.mmapLen ≠ 0) (hmp : s.fs.mapped = true)
    (hov : s.lg.writeAt / env.pageSize * env.pageSize +
      defaultMegaByteSize * env.megabyte > maxFileSize s.lg env) :
    (allocateSpace env s).2 = none ∧
    (allocateSpace env s).1.lg.writeAt = 0 ∧
    (allocateSpace env s).1.lg.writeStartAt = 0 ∧
    (allocateSpace env s).1.lg.mmapStart = 0 ∧
    (allocateSpace env s).1.lg.mmapLen = defaultMegaByteSize * env.megabyte ∧
    (allocateSpace env s).1.lg.size = defaultMegaByteSize * env.megabyte ∧
    (allocateSpace env s).1.fs.mapped = true ∧
    (allocateSpace env s).1.fs.activeData =
      List.replicate (defaultMegaByteSize * env.megabyte).toNat 0 ∧
    (allocateSpace env s).1.fs.archived.length = s.fs.archived.length + 1 ∧
    ((rotate env (unMap s).1).1).lg.writeAt = 0 ∧
    ((rotate env (unMap s).1).1).lg.size = 0 := by
  have hu := unMap_spec_mapped s hml hmp
  have hs1lg : (unMap s).1.lg = s.lg := unMap_lg s
  have hrot := rotate_spec env (unMap s).1
    (by rw [hs1lg]; exact hnil)
    (by rw [hu]; exact hopen)
    (by rw [hu]; exact hex)
  unfold allocateSpace
  rw [errOr_of_none _ _ _ (by rw [hu] : (unMap s).2 = none)]
  dsimp only
  have hby : decide ((unMap s).1.lg.writeAt / env.pageSize * env.pageSize +
      defaultMegaByteSize * env.megabyte > maxFileSize (unMap s).1.lg env) = true := by
    rw [hs1lg]
    exact decide_eq_true hov
  simp only [hby, if_true]
  rw [errOr_of_none _ _ _ (by rw [hrot] : (rotate env (unMap s).1).2 = none)]
  rw [hrot]
  refine ⟨rfl, rfl, rfl, rfl, rfl, ?_, rfl, ?_, ?_, rfl, rfl⟩
  · show 0 + defaultMegaByteSize * env.megabyte = defaultMegaByteSize * env.megabyte
    rw [zero_add]
  · show resizeTo [] (0 + defaultMegaByteSize * env.megabyte) = _
    rw [resizeTo_nil]
    norm_num
  · show (((unMap s).1.fs.archived ++ [_]).length = s.fs.archived.length + 1)
    rw [hu]
    simp

/-- Witness for C5: under `env1` the state `st3` with max size clamped to 3
bytes overflows (window start 4 plus window 10 exceeds 3), so allocation
rotates: one file is archived at the truncated 7-byte size and a fresh
10-byte window is mapped at offset 0 of the new empty file. -/
theorem c5_allocate_overflow_rotates_witness :
    (allocateSpace env1 { st3 with lg := { st3.lg with MaxSize := 3 } }).2 = none ∧
    (allocateSpace env1 { st3 with lg := { st3.lg with MaxSize := 3 } }).1.lg.writeAt = 0 ∧
    (allocateSpace env1 { st3 with lg := { st3.lg with MaxSize := 3 } }).1.lg.writeStartAt = 0 ∧
    (allocateSpace env1 { st3 with lg := { st3.lg with MaxSize := 3 } }).1.lg.mmapStart = 0 := by
  have h := c5_allocate_overflow_rotates env1
    { st3 with lg := { st3.lg with MaxSize := 3 } }
    (by decide) (by decide) (by decide) (by decide) (by decide) (by decide)
  exact ⟨h.1, h.2.1, h.2.2.1, h.2.2.2.1⟩

/-- C8: compressLogFile deletes the source only after the compressed stream
was fully written and both closes succeeded (so a removed source implies a
surviving, flushed destination holding everything and no error), and any
failure during the compression itself (the copy or either close) triggers
the deferred cleanup: the partial destination is removed, an error is
returned, and the source file and its bytes are untouched. -/
theorem c8_compress_src_deleted_only_after_success (fail : CStep → Bool) (fs : CFs)
    (hsrc : fs.srcExists = true) :
    ((compressLogFile fail fs).1.srcExists = false →
      (compressLogFile fail fs).2 = none ∧
      (compressLogFile fail fs).1.dstExists = true ∧
      (compressLogFile fail fs).1.dstFlushed = true ∧
      (compressLogFile fail fs).1.dstBuf = fs.srcData) ∧
    ((fail CStep.openSrc = false ∧ fail CStep.statSrc = false ∧
      fail CStep.chownDst = false ∧ fail CStep.openDst = false ∧
      (fail CStep.copyData = true ∨ fail CStep.gzClose = true ∨
        fail CStep.gzfClose = true)) →
      (compressLogFile fail fs).2.isSome = true ∧
      (compressLogFile fail fs).1.dstExists = false ∧
      (compressLogFile fail fs).1.srcExists = true ∧
      (compressLogFile fail fs).1.srcData = fs.srcData) := by
  unfold compressLogFile
  dsimp only
  split_ifs with h1 h2 h3 h4 h5 h6 h7 h8 h9 <;> simp_all

/-- Witness for C8: with the copy failing, compressLogFile errors, removes
the destination and leaves the two-byte source untouched. -/
theorem c8_compress_src_deleted_only_after_success_witness :
    (compressLogFile failCopy cfs0).2.isSome = true ∧
    (compressLogFile failCopy cfs0).1.dstExists = false ∧
    (compressLogFile failCopy cfs0).1.srcExists = true ∧
    (compressLogFile failCopy cfs0).1.srcData = cfs0.srcData :=
  (c8_compress_src_deleted_only_after_success failCopy cfs0 (by decide)).2 (by decide)

/-! Facts about names, parsing and the sweep. -/

theorem hasPfx_append (a b c : List Char) : hasPfx (a ++ b) (a ++ c) = hasPfx b c := by
  induction a with
  | nil => rfl
  | cons x xs ih => simp [hasPfx, ih]

theorem extOf_shape (b : List Char) :
    extOf b = [] ∨ ∃ cs, extOf b = '.' :: cs := by
  induction b with
  | nil => exact Or.inl rfl
  | cons c cs ih =>
    unfold extOf
    dsimp only
    by_cases h : extOf cs = []
    · rw [if_pos h]
      by_cases hc : c = '.'
      · subst hc
        rw [if_pos rfl]
        exact Or.inr ⟨cs, rfl⟩
      · rw [if_neg hc]
        exact Or.inl rfl
    · rw [if_neg h]
      exact ih

theorem extOf_length_le (b : List Char) : (extOf b).length ≤ b.length := by
  induction b with
  | nil => exact Nat.le_refl 0
  | cons c cs ih =>
    unfold extOf
    dsimp only
    by_cases h : extOf cs = []
    · rw [if_pos h]
      by_cases hc : c = '.'
      · rw [if_pos hc]
      · rw [if_neg hc]
        exact Nat.zero_le _
    · rw [if_neg h]
      exact Nat.le_succ_of_le ih

theorem extOf_suffix (b : List Char) :
    b.take (b.length - (extOf b).length) ++ extOf b = b := by
  induction b with
  | nil => rfl
  | cons c cs ih =>
    unfold extOf
    dsimp only
    by_cases h : extOf cs = []
    · rw [if_pos h]
      by_cases hc : c = '.'
      · rw [if_pos hc]
        simp
      · rw [if_neg hc]
        simp
    · rw [if_neg h]
      have hle := extOf_length_le cs
      have hstep : (c :: cs).length - (extOf cs).length =
          (cs.length - (extOf cs).length) + 1 := by
        simp only [List.length_cons]
        omega
      rw [hstep, List.take_succ_cons, List.cons_append, ih]

theorem hasPfx_ext_dash (st e : List Char)
    (h : e = [] ∨ ∃ cs, e = '.' :: cs) :
    hasPfx (st ++ e) (st ++ ['-']) = false := by
  rw [hasPfx_append]
  rcases h with h | ⟨cs, h⟩ <;> subst h <;> rfl

theorem hasPfx_base_dash_false (b : List Char) :
    hasPfx b (b.take (b.length - (extOf b).length) ++ ['-']) = false := by
  have h := hasPfx_ext_dash (b.take (b.length - (extOf b).length)) (extOf b)
    (extOf_shape b)
  rwa [extOf_suffix b] at h

theorem timeFromName_some_hasPfx (fname pfx e : List Char) (t : Int)
    (h : timeFromName fname pfx e = some t) : hasPfx fname pfx = true := by
  unfold timeFromName at h
  split_ifs at h with a b
  by_cases hc : hasPfx fname pfx = true
  · exact hc
  · exact absurd (Bool.not_eq_true _ ▸ hc : hasPfx fname pfx = false) a

theorem mem_insertDesc (f x : LogInfo) (l : List LogInfo) :
    x ∈ insertDesc f l ↔ x = f ∨ x ∈ l := by
  induction l with
  | nil => simp [insertDesc]
  | cons g gs ih =>
    unfold insertDesc
    split_ifs with h
    · simp [List.mem_cons]
    · simp only [List.mem_cons, ih]
      tauto

theorem mem_sortByFormatTime (fs : List LogInfo) (x : LogInfo) :
    x ∈ sortByFormatTime fs ↔ x ∈ fs := by
  unfold sortByFormatTime
  induction fs with
  | nil => simp
  | cons f gs ih =>
    simp only [List.foldr_cons, mem_insertDesc, ih, List.mem_cons]

theorem pairwise_insertDesc (f : LogInfo) (l : List LogInfo)
    (h : List.Pairwise (fun a b => b.timestamp ≤ a.timestamp) l) :
    List.Pairwise (fun a b => b.timestamp ≤ a.timestamp) (insertDesc f l) := by
  induction l with
  | nil => simp [insertDesc]
  | cons g gs ih =>
    rw [List.pairwise_cons] at h
    obtain ⟨hg, hgs⟩ := h
    unfold insertDesc
    split_ifs with hlt
    · refine List.Pairwise.cons ?_ (List.Pairwise.cons hg hgs)
      intro x hx
      rcases List.mem_cons.mp hx with rfl | hx2
      · exact le_of_lt hlt
      · exact le_trans (hg x hx2) (le_of_lt hlt)
    · refine List.Pairwise.cons ?_ (ih hgs)
      intro x hx
      rcases (mem_insertDesc f x gs).mp hx with rfl | hx2
      · exact not_lt.mp hlt
      · exact hg x hx2

theorem sortByFormatTime_sorted (fs : List LogInfo) :
    List.Pairwise (fun a b => b.timestamp ≤ a.timestamp) (sortByFormatTime fs) := by
  unfold sortByFormatTime
  induction fs with
  | nil => exact List.Pairwise.nil
  | cons f gs ih => exact pairwise_insertDesc f _ ih

theorem millSelect_fst_mem (m : Int) (fs : List LogInfo) (pres : List (List Char)) :
    ∀ x ∈ (millSelect m fs pres).1, x ∈ fs := by
  induction fs generalizing pres with
  | nil =>
    intro x hx
    simp [millSelect] at hx
  | cons f gs ih =>
    intro x hx
    unfold millSelect at hx
    dsimp only at hx
    split_ifs at hx with h
    · rcases List.mem_cons.mp hx with rfl | hx2
      · exact List.mem_cons_self x gs
      · exact List.mem_cons_of_mem f (ih _ x hx2)
    · exact List.mem_cons_of_mem f (ih _ x hx)

theorem millSelect_snd_mem (m : Int) (fs : List LogInfo) (pres : List (List Char)) :
    ∀ x ∈ (millSelect m fs pres).2, x ∈ fs := by
  induction fs generalizing pres with
  | nil =>
    intro x hx
    simp [millSelect] at hx
  | cons f gs ih =>
    intro x hx
    unfold millSelect at hx
    dsimp only at hx
    split_ifs at hx with h
    · exact List.mem_cons_of_mem f (ih _ x hx)
    · rcases List.mem_cons.mp hx with rfl | hx2
      · exact List.mem_cons_self x gs
      · exact List.mem_cons_of_mem f (ih _ x hx2)

theorem millRunOnce_subset (l : MMapLogger) (env : Env)
    (entries : List (List Char)) (now : Int) :
    (∀ x ∈ (millRunOnce l env entries now).1, x ∈ oldLogFiles l env entries) ∧
    (∀ x ∈ (millRunOnce l env entries now).2, x ∈ oldLogFiles l env entries) := by
  unfold millRunOnce
  dsimp only
  split_ifs with h1 h2 h3 h4 <;>
    constructor <;> intro x hx <;>
    simp only [List.mem_append, List.mem_filter, List.not_mem_nil,
      or_false, false_or] at hx <;>
    first
    | exact hx.elim
    | exact millSelect_fst_mem _ _ _ x hx
    | exact millSelect_snd_mem _ _ _ x hx
    | exact millSelect_snd_mem _ _ _ x hx.1
    | exact millSelect_snd_mem _ _ _ x hx.1.1
    | exact hx
    | exact hx.1
    | exact hx.1.1
    | (rcases hx with hx | hx <;>
       first
       | exact millSelect_fst_mem _ _ _ x hx
       | exact millSelect_snd_mem _ _ _ x hx.1)

theorem mem_oldLogFiles_hasPfx (l : MMapLogger) (env : Env)
    (entries : List (List Char)) (fi : LogInfo)
    (hfi : fi ∈ oldLogFiles l env entries) :
    hasPfx fi.name (stemAndExt l env).1 = true := by
  unfold oldLogFiles at hfi
  rw [mem_sortByFormatTime] at hfi
  obtain ⟨nm, hnm, hg⟩ := List.mem_filterMap.mp hfi
  rcases h1 : timeFromName nm (stemAndExt l env).1 (stemAndExt l env).2 with _ | t1
  · rcases h2 : timeFromName nm (stemAndExt l env).1
        ((stemAndExt l env).2 ++ compressSuffix) with _ | t2
    · rw [h1, h2] at hg
      cases hg
    · rw [h1, h2] at hg
      cases hg
      exact timeFromName_some_hasPfx nm _ _ t2 h2
  · rw [h1] at hg
    cases hg
    exact timeFromName_some_hasPfx nm _ _ t1 h1

/-- C10: the sweep can never touch the active file: every candidate
oldLogFiles returns has a name beginning with the file stem and a dash
(whose remainder parsed as a backup timestamp), the canonical base name
itself can never match that pattern, and the remove and compress lists of a
sweep are drawn from those candidates, so the canonical file is never
removed or compressed. -/
theorem c10_active_file_never_swept (l : MMapLogger) (env : Env)
    (entries : List (List Char)) (now : Int) :
    (∀ fi ∈ oldLogFiles l env entries, hasPfx fi.name (stemAndExt l env).1 = true) ∧
    (∀ fi ∈ oldLogFiles l env entries, fi.name ≠ baseName (filename l env)) ∧
    (∀ fi ∈ (millRunOnce l env entries now).1, fi.name ≠ baseName (filename l env)) ∧
    (∀ fi ∈ (millRunOnce l env entries now).2, fi.name ≠ baseName (filename l env)) := by
  have hpat := mem_oldLogFiles_hasPfx l env entries
  have hnot : ∀ fi ∈ oldLogFiles l env entries,
      fi.name ≠ baseName (filename l env) := by
    intro fi hfi heq
    have h := hpat fi hfi
    rw [heq] at h
    have hfalse := hasPfx_base_dash_false (baseName (filename l env))
    unfold stemAndExt at h
    rw [h] at hfalse
    cases hfalse
  refine ⟨hpat, hnot, ?_, ?_⟩
  · intro fi hfi
    exact hnot fi ((millRunOnce_subset l env entries now).1 fi hfi)
  · intro fi hfi
    exact hnot fi ((millRunOnce_subset l env entries now).2 fi hfi)

/-- Witness for C10: in the listing `entriesB` the sweep of the one-backup
writer marks the older backup for removal, and that marked file is not the
active file a.log. -/
theorem c10_active_file_never_swept_witness :
    LogInfo.mk bk1 20240102030405006 ∈ (millRunOnce lgB env1 entriesB 0).1 ∧
    (LogInfo.mk bk1 20240102030405006).name ≠ baseName (filename lgB env1) := by
  refine ⟨by decide, ?_⟩
  exact (c10_active_file_never_swept lgB env1 entriesB 0).2.2.1
    (LogInfo.mk bk1 20240102030405006) (by decide)

theorem insertNew_length_ge (pres : List (List Char)) (k : List Char) :
    pres.length ≤ (insertNew pres k).length := by
  unfold insertNew
  split_ifs
  · exact Nat.le_refl _
  · simp

theorem insertNew_length_le (pres : List (List Char)) (k : List Char) :
    (insertNew pres k).length ≤ pres.length + 1 := by
  unfold insertNew
  split_ifs
  · exact Nat.le_succ _
  · simp

theorem stemsAux_length_ge (fs : List LogInfo) (pres : List (List Char)) :
    pres.length ≤ (stemsAux pres fs).length := by
  induction fs generalizing pres with
  | nil => exact Nat.le_refl _
  | cons f gs ih =>
    exact Nat.le_trans (insertNew_length_ge pres (stripGz f.name)) (ih _)

theorem millSelect_over (m : Int) (fs : List LogInfo) (pres : List (List Char))
    (h : (pres.length : Int) > m) : millSelect m fs pres = (fs, []) := by
  induction fs generalizing pres with
  | nil => rfl
  | cons f gs ih =>
    unfold millSelect
    dsimp only
    have hgt : ((insertNew pres (stripGz f.name)).length : Int) > m :=
      lt_of_lt_of_le h (by exact_mod_cast insertNew_length_ge pres (stripGz f.name))
    rw [if_pos hgt, ih _ hgt]

theorem millSelect_eq (m : Int) (fs : List LogInfo) (pres : List (List Char)) :
    millSelect m fs pres =
      (fs.drop (keepCnt m pres fs), fs.take (keepCnt m pres fs)) := by
  induction fs generalizing pres with
  | nil => rfl
  | cons f gs ih =>
    unfold millSelect keepCnt
    dsimp only
    by_cases h : ((insertNew pres (stripGz f.name)).length : Int) > m
    · rw [if_pos h, if_pos h, millSelect_over m gs _ h]
      rfl
    · rw [if_neg h, if_neg h, ih]
      rw [List.drop_succ_cons, List.take_succ_cons]

theorem stems_take_keepCnt (m : Int) (fs : List LogInfo) (pres : List (List Char))
    (hle : (pres.length : Int) ≤ m) :
    ((stemsAux pres (fs.take (keepCnt m pres fs))).length : Int) =
      min m ((stemsAux pres fs).length : Int) := by
  induction fs generalizing pres with
  | nil =>
    show ((stemsAux pres []).length : Int) = min m ((stemsAux pres []).length : Int)
    exact (min_eq_right hle).symm
  | cons f gs ih =>
    unfold keepCnt
    dsimp only
    by_cases h : ((insertNew pres (stripGz f.name)).length : Int) > m
    · rw [if_pos h]
      show ((stemsAux pres []).length : Int) = min m ((stemsAux pres (f :: gs)).length : Int)
      have h1 : (insertNew pres (stripGz f.name)).length ≤ pres.length + 1 :=
        insertNew_length_le pres (stripGz f.name)
      have h2 : (insertNew pres (stripGz f.name)).length ≤
          (stemsAux (insertNew pres (stripGz f.name)) gs).length :=
        stemsAux_length_ge gs _
      show ((pres.length : Int)) = min m ((stemsAux (insertNew pres (stripGz f.name)) gs).length : Int)
      have hm : (pres.length : Int) = m := by
        have h1i : ((insertNew pres (stripGz f.name)).length : Int) ≤ (pres.length : Int) + 1 := by
          exact_mod_cast h1
        omega
      have hbig : m ≤ ((stemsAux (insertNew pres (stripGz f.name)) gs).length : Int) := by
        have h2i : ((insertNew pres (stripGz f.name)).length : Int) ≤
            ((stemsAux (insertNew pres (stripGz f.name)) gs).length : Int) := by
          exact_mod_cast h2
        omega
      rw [hm, min_eq_left hbig]
    · rw [if_neg h]
      rw [List.take_succ_cons]
      show ((stemsAux (insertNew pres (stripGz f.name)) (gs.take _)).length : Int) =
        min m ((stemsAux (insertNew pres (stripGz f.name)) gs).length : Int)
      exact ih _ (not_lt.mp h)

theorem oldLogFiles_sorted (l : MMapLogger) (env : Env) (entries : List (List Char)) :
    List.Pairwise (fun a b => b.timestamp ≤ a.timestamp)
      (oldLogFiles l env entries) := by
  unfold oldLogFiles
  exact sortByFormatTime_sorted _

/-- C7: with a positive backup limit m and more candidates than m, the sweep
works on the candidates sorted newest first, splits them into a kept front
segment and a removed back segment (exactly the files beyond the point where
the set of distinct stems grows past m, a compressed and an uncompressed
file with the same stem counting once), removes nothing else, and every
removed file is at least as old as every kept file; the kept segment holds
min(m, number of distinct stems) backups, so the m most recent backups
remain. -/
theorem c7_retention_by_count (l : MMapLogger) (env : Env)
    (entries : List (List Char)) (now : Int)
    (hm : 0 < l.MaxBackups) (hage : l.MaxAge = 0) (hcomp : l.Compress = false)
    (hlen : l.MaxBackups < ((oldLogFiles l env entries).length : Int)) :
    List.Pairwise (fun a b => b.timestamp ≤ a.timestamp)
      (oldLogFiles l env entries) ∧
    millRunOnce l env entries now =
      ((oldLogFiles l env entries).drop
        (keepCnt l.MaxBackups [] (oldLogFiles l env entries)), []) ∧
    (∀ r ∈ (oldLogFiles l env entries).drop
        (keepCnt l.MaxBackups [] (oldLogFiles l env entries)),
     ∀ g ∈ (oldLogFiles l env entries).take
        (keepCnt l.MaxBackups [] (oldLogFiles l env entries)),
      r.timestamp ≤ g.timestamp) ∧
    ((stemsAux [] ((oldLogFiles l env entries).take
        (keepCnt l.MaxBackups [] (oldLogFiles l env entries)))).length : Int) =
      min l.MaxBackups ((stemsAux [] (oldLogFiles l env entries)).length : Int) := by
  refine ⟨oldLogFiles_sorted l env entries, ?_, ?_, ?_⟩
  · unfold millRunOnce
    dsimp only
    rw [if_neg (by intro hc; omega : ¬(l.MaxBackups = 0 ∧ l.MaxAge = 0 ∧ l.Compress = false))]
    rw [if_pos ⟨hm, hlen⟩]
    rw [if_neg (by omega : ¬ l.MaxAge > 0)]
    rw [if_neg (by simp [hcomp])]
    rw [millSelect_eq]
    rw [List.append_nil]
  · intro r hr g hg
    have hp := oldLogFiles_sorted l env entries
    rw [← List.take_append_drop
      (keepCnt l.MaxBackups [] (oldLogFiles l env entries))
      (oldLogFiles l env entries)] at hp
    exact (List.pairwise_append.mp hp).2.2 g (by simpa using hg) r (by simpa using hr)
  · exact stems_take_keepCnt l.MaxBackups (oldLogFiles l env entries) []
      (by simp; omega)

/-- Witness for C7: with one backup allowed and three candidates in
`entriesB`, the sweep removes exactly the oldest file and keeps the two
files sharing the newest stem, one distinct backup in total. -/
theorem c7_retention_by_count_witness :
    millRunOnce lgB env1 entriesB 0 =
      ((oldLogFiles lgB env1 entriesB).drop
        (keepCnt lgB.MaxBackups [] (oldLogFiles lgB env1 entriesB)), []) ∧
    millRunOnce lgB env1 entriesB 0 = ([LogInfo.mk bk1 20240102030405006], []) := by
  have h := (c7_retention_by_count lgB env1 entriesB 0
    (by decide) rfl rfl (by decide)).2.1
  exact ⟨h, by rw [h]; decide⟩

end MmapWriteSyncer
